import Mathlib

set_option maxHeartbeats 1000000

/-!
Verification of the 2048 grid-transformation engine of this repository.

The definitions below are a shallow embedding of the `GameEngine` class
(`src/js/storage/StorageAdapter.js`, second document: `resetGrid`,
`addRandomTile`, `getVector`, `buildTraversals`, `findFarthestPosition`,
`withinBounds`, `cellAvailable`, `move`, `saveGameState`, `undo`,
`movesAvailable`, `hasWon`, `checkGameState`, `restart`) together with the
`getVector` of the browser engine (`src/script.js`).  JS arrays of fixed
size 4 are embedded as total functions on `Fin 4`; a JS tile object
`{ value: v }` is `some v` and `null` is `none`; the two `Math.random()`
draws of `addRandomTile` are passed in as rational inputs in `[0, 1)`.
-/

/-- Board side length (`this.gridSize = 4`). -/
def gridSize : Nat := 4

/-- An integer coordinate pair `{row, col}`; coordinates may step off the
board while walking along a direction vector. -/
abbrev Pos := Int × Int

/-- The 4x4 board: each cell is empty (`none`, JS `null`) or holds a tile
value (`some v`, JS `{value: v}`). -/
abbrev Grid := Fin 4 → Fin 4 → Option Nat

/-- Interpret an integer coordinate pair as a board index when it lies on
the board. -/
def toIdx? (p : Pos) : Option (Fin 4 × Fin 4) :=
  if h : 0 ≤ p.1 ∧ p.1 < 4 ∧ 0 ≤ p.2 ∧ p.2 < 4 then
    some (⟨p.1.toNat, by omega⟩, ⟨p.2.toNat, by omega⟩)
  else
    none

/-- Read `this.grid[r][c]`; an off-board read is JS `undefined`, which the
engine only ever compares against `null`/`undefined` or guards with
`withinBounds`, so it is collapsed to `none` here. -/
def gAt (g : Grid) (p : Pos) : Option Nat :=
  match toIdx? p with
  | some a => g a.1 a.2
  | none => none

/-- The assignment `this.grid[r][c] = v`.  The engine never assigns out of
bounds (merge targets and farthest cells are on the board), so the
off-board case is the identity. -/
def setCell (g : Grid) (p : Pos) (v : Option Nat) : Grid :=
  match toIdx? p with
  | some a => fun i j => if (i, j) = a then v else g i j
  | none => g

/-- `withinBounds(cell)` from the source. -/
def withinBounds (p : Pos) : Bool :=
  decide (0 ≤ p.1 ∧ p.1 < (gridSize : Int) ∧ 0 ≤ p.2 ∧ p.2 < (gridSize : Int))

/-- `cellAvailable(cell)`: the cell is empty (`=== null`). -/
def cellAvailable (g : Grid) (p : Pos) : Bool :=
  decide (gAt g p = none)

/-- `getVector(direction)` of `GameEngine`: the four legal direction names
map to unit vectors, and any other string falls back to the zero vector
(`vectors[direction] || {row: 0, col: 0}`). -/
def getVector (direction : String) : Pos :=
  if direction = "up" then (-1, 0)
  else if direction = "down" then (1, 0)
  else if direction = "left" then (0, -1)
  else if direction = "right" then (0, 1)
  else (0, 0)

/-- `getVector(direction)` of the browser engine (`src/script.js`), which
has no fallback: an unknown key yields `undefined` (`none`), on which the
subsequent `buildTraversals(vector)` throws before any state is touched. -/
def getVectorScript (direction : String) : Option Pos :=
  if direction = "ArrowUp" then some (-1, 0)
  else if direction = "ArrowRight" then some (0, 1)
  else if direction = "ArrowDown" then some (1, 0)
  else if direction = "ArrowLeft" then some (0, -1)
  else none

/-- `buildTraversals(vector)`: row and column visiting orders, reversed on
the axis pointing toward increasing indices. -/
def buildTraversals (vec : Pos) : List Int × List Int :=
  let rows := (List.range gridSize).map (fun r => (r : Int))
  let cols := (List.range gridSize).map (fun c => (c : Int))
  (if vec.1 = 1 then rows.reverse else rows,
   if vec.2 = 1 then cols.reverse else cols)

/-- The `while` loop of `findFarthestPosition`.  The source loop advances
`next` one vector step at a time while it is on the board and empty; it is
only entered from an occupied source cell, so it always stops within
`gridSize` steps (immediately, for the zero vector).  The fuel `2 *
gridSize` strictly bounds the iteration count at every call site. -/
def farthestGo (g : Grid) (vec : Pos) : Nat → Pos → Pos → Pos × Pos
  | 0, prev, next => (prev, next)
  | fuel + 1, prev, next =>
    if withinBounds next && cellAvailable g next then
      farthestGo g vec fuel next (next.1 + vec.1, next.2 + vec.2)
    else
      (prev, next)

/-- `findFarthestPosition(cell, vector)`: the farthest reachable empty cell
(first component) and the first blocking position beyond it (second
component). -/
def findFarthestPosition (g : Grid) (cell vec : Pos) : Pos × Pos :=
  farthestGo g vec (2 * gridSize) cell (cell.1 + vec.1, cell.2 + vec.2)

/-- The per-cell `merged[r][c]` marks of one `move` call. -/
abbrev Marks := Fin 4 → Fin 4 → Bool

/-- Read a merged mark; off the board the short-circuited source condition
never reaches the mark, rendered here as `false`. -/
def markAt (m : Marks) (p : Pos) : Bool :=
  match toIdx? p with
  | some a => m a.1 a.2
  | none => false

/-- `merged[r][c] = true`. -/
def setMark (m : Marks) (p : Pos) : Marks :=
  match toIdx? p with
  | some a => fun i j => if (i, j) = a then true else m i j
  | none => m

/-- The animation events the move loop hands to the renderer
(`addMoveAnimation` / `addMergeAnimation`). -/
inductive GameEvent where
  | moveEv : Pos → Pos → Nat → GameEvent
  | mergeEv : Pos → Nat → GameEvent
deriving DecidableEq

/-- Number of merge events in an event list (the `M` of the spec). -/
def mergeCount (es : List GameEvent) : Nat :=
  es.countP fun e =>
    match e with
    | GameEvent.mergeEv _ _ => true
    | _ => false

/-- The mutable state of one `move` call: the grid, the merged marks, the
`moved` flag, the running `score`/`bestScore` (mutated by `updateScore`),
and the recorded animation events. -/
structure MoveAcc where
  grid : Grid
  merged : Marks
  moved : Bool
  score : Nat
  bestScore : Nat
  events : List GameEvent

/-- The body of the traversal (`traversals.rows.forEach(... cols.forEach ...)`)
for a single visited cell.  Mirrors the source exactly: merge when the
blocking cell holds an equal, not-yet-merged tile (`updateScore` adds the
doubled value and raises `bestScore` when exceeded); otherwise relocate to
the farthest empty cell when it differs from the source cell. -/
def processCell (vec : Pos) (acc : MoveAcc) (p : Pos) : MoveAcc :=
  match gAt acc.grid p with
  | none => acc
  | some tv =>
    let fp := findFarthestPosition acc.grid p vec
    if gAt acc.grid fp.2 = some tv ∧ markAt acc.merged fp.2 = false then
      { grid := setCell (setCell acc.grid fp.2 (some (tv * 2))) p none,
        merged := setMark acc.merged fp.2,
        moved := true,
        score := acc.score + tv * 2,
        bestScore :=
          if acc.score + tv * 2 > acc.bestScore then acc.score + tv * 2
          else acc.bestScore,
        events := acc.events ++
          [GameEvent.moveEv p fp.2 tv, GameEvent.mergeEv fp.2 (tv * 2)] }
    else if fp.1 ≠ p then
      { acc with
        grid := setCell (setCell acc.grid fp.1 (some tv)) p none,
        moved := true,
        events := acc.events ++ [GameEvent.moveEv p fp.1 tv] }
    else acc

/-- The whole traversal of one `move` call, from building the traversal
order to the final `moved` flag: a left fold of `processCell` over the
visited cells in source order (rows outer, columns inner). -/
def moveCore (g : Grid) (score bestScore : Nat) (vec : Pos) : MoveAcc :=
  let tr := buildTraversals vec
  let cells := tr.1.flatMap fun r => tr.2.map fun c => (r, c)
  cells.foldl (processCell vec)
    { grid := g, merged := fun _ _ => false, moved := false,
      score := score, bestScore := bestScore, events := [] }

/-- The `emptyCells` collection of `addRandomTile`: all empty positions in
row-major order. -/
def emptyCells (g : Grid) : List Pos :=
  (List.range gridSize).flatMap fun (r : Nat) =>
    (List.range gridSize).filterMap fun (c : Nat) =>
      if gAt g ((r : Int), (c : Int)) = none then some ((r : Int), (c : Int))
      else none

/-- The random cell draw of `addRandomTile`: the index
`Math.floor(Math.random() * len)` computed from a draw `q` of
`Math.random()`, which lies in `[0, 1)`, so the index always lies in
`[0, len)` when `len > 0`. -/
def randomIndex (q : ℚ) (len : Nat) : Nat :=
  Int.toNat ⌊q * (len : ℚ)⌋

/-- The random value draw of `addRandomTile`:
`Math.random() < 0.9 ? 2 : 4` computed from a draw `q` of `Math.random()`. -/
def randomValue (q : ℚ) : Nat :=
  if q < 9 / 10 then 2 else 4

/-- `addRandomTile()`, with the two `Math.random()` draws passed in as
inputs: `k` is the already-floored cell index (`randomIndex` of a draw,
hence `k < emptyCells.length` in any actual run) and `lt09` is the result
of the comparison `Math.random() < 0.9` (so the value is 2 on `true` and 4
on `false`, i.e. `randomValue` of the draw).  No empty cell: no-op
returning `false`.  (`getD` supplies a junk cell for `k` out of range,
which JS guarantees never happens.) -/
def addRandomTile (g : Grid) (k : Nat) (lt09 : Bool) : Grid × Bool :=
  let e := emptyCells g
  if e.length = 0 then (g, false)
  else
    let cell := e.getD k ((0 : Int), (0 : Int))
    let value : Nat := if lt09 then 2 else 4
    (setCell g cell (some value), true)

/-- A history snapshot: the deep copy `{grid, score, won, keepPlaying}`
built by `saveGameState`. -/
structure Snapshot where
  grid : Grid
  score : Nat
  won : Bool
  keepPlaying : Bool
deriving DecidableEq

/-- The persistent fields of `GameEngine`. -/
structure GameState where
  grid : Grid
  score : Nat
  bestScore : Nat
  won : Bool
  keepPlaying : Bool
  gameHistory : List Snapshot
  undoCount : Nat
deriving DecidableEq

/-- The snapshot `saveGameState` takes of the current state (the JS deep
copy of a well-formed 4x4 grid is the value itself in this embedding). -/
def snapOf (s : GameState) : Snapshot :=
  { grid := s.grid, score := s.score, won := s.won, keepPlaying := s.keepPlaying }

/-- The history push of `saveGameState`: append, then `shift()` the oldest
entry away when the length exceeds 5. -/
def pushHistory (h : List Snapshot) (x : Snapshot) : List Snapshot :=
  let h' := h ++ [x]
  if 5 < h'.length then h'.drop 1 else h'

/-- `saveGameState()`. -/
def saveGameState (s : GameState) : GameState :=
  { s with gameHistory := pushHistory s.gameHistory (snapOf s) }

/-- `hasWon()`: some cell holds exactly 2048. -/
def hasWon (g : Grid) : Bool :=
  (List.range gridSize).any fun (r : Nat) =>
    (List.range gridSize).any fun (c : Nat) =>
      decide (gAt g ((r : Int), (c : Int)) = some 2048)

/-- First loop of `movesAvailable()`: some cell is empty. -/
def anyEmptyCell (g : Grid) : Bool :=
  (List.range gridSize).any fun (r : Nat) =>
    (List.range gridSize).any fun (c : Nat) =>
      decide (gAt g ((r : Int), (c : Int)) = none)

/-- Second loop of `movesAvailable()`: some tile has an equal neighbor to
its right or below it. -/
def anyMergeablePair (g : Grid) : Bool :=
  (List.range gridSize).any fun (r : Nat) =>
    (List.range gridSize).any fun (c : Nat) =>
      match gAt g ((r : Int), (c : Int)) with
      | none => false
      | some v =>
        (decide (c < gridSize - 1) &&
          decide (gAt g ((r : Int), (c : Int) + 1) = some v)) ||
        (decide (r < gridSize - 1) &&
          decide (gAt g ((r : Int) + 1, (c : Int)) = some v))

/-- `movesAvailable()`: the early `return true` on an empty cell followed
by the neighbor scan. -/
def movesAvailable (g : Grid) : Bool :=
  anyEmptyCell g || anyMergeablePair g

/-- `checkGameState()`: latch `won` on first reaching 2048; the game-over
branch only raises UI messages and changes no engine state. -/
def checkGameState (s : GameState) : GameState :=
  if !s.won && hasWon s.grid then { s with won := true } else s

/-- `move(direction)`: speculative `saveGameState`, the traversal, then on
success one random tile, `checkGameState`, and `true`; on a no-op the
just-pushed history entry is popped and `false` is returned. -/
def move (s : GameState) (direction : String) (k : Nat) (lt09 : Bool) :
    GameState × Bool :=
  let s1 := saveGameState s
  let acc := moveCore s1.grid s1.score s1.bestScore (getVector direction)
  let s2 : GameState :=
    { s1 with grid := acc.grid, score := acc.score, bestScore := acc.bestScore }
  if acc.moved then
    (checkGameState { s2 with grid := (addRandomTile s2.grid k lt09).1 }, true)
  else
    ({ s2 with gameHistory := s2.gameHistory.dropLast }, false)

/-- `undo()`: no-op returning `false` on empty history or exhausted undo
budget; otherwise pop the most recent snapshot, restore
grid/score/won/keepPlaying from it, and decrement `undoCount`. -/
def undo (s : GameState) : GameState × Bool :=
  if s.gameHistory.length = 0 then (s, false)
  else if s.undoCount ≤ 0 then (s, false)
  else
    match s.gameHistory.getLast? with
    | none => (s, false)
    | some prev =>
      ({ s with
          grid := prev.grid,
          score := prev.score,
          won := prev.won,
          keepPlaying := prev.keepPlaying,
          gameHistory := s.gameHistory.dropLast,
          undoCount := s.undoCount - 1 }, true)

/-- `resetGrid()`: empty grid, zero score, cleared flags and history, undo
budget back to 5. -/
def resetGrid (s : GameState) : GameState :=
  { s with
      grid := fun _ _ => none,
      score := 0,
      won := false,
      keepPlaying := false,
      gameHistory := [],
      undoCount := 5 }

/-- `restart()` = `init()`: load best score (kept as is here; storage is a
collaborator), reset the grid, and spawn two random tiles. -/
def restart (s : GameState) (k1 : Nat) (b1 : Bool) (k2 : Nat) (b2 : Bool) :
    GameState :=
  let s1 := resetGrid s
  let s2 := { s1 with grid := (addRandomTile s1.grid k1 b1).1 }
  { s2 with grid := (addRandomTile s2.grid k2 b2).1 }

/-- Number of occupied cells of a grid. -/
def countTiles (g : Grid) : Nat :=
  (Finset.univ.filter fun p : Fin 4 × Fin 4 => (g p.1 p.2).isSome).card

/-! ### Spec-side characterization of game over (for comparison with
`movesAvailable`) -/

/-- Modelled from the spec: two board cells are orthogonally adjacent. -/
def AdjacentCells (p q : Fin 4 × Fin 4) : Prop :=
  (p.1 = q.1 ∧ ((p.2 : Nat) + 1 = (q.2 : Nat) ∨ (q.2 : Nat) + 1 = (p.2 : Nat))) ∨
  (p.2 = q.2 ∧ ((p.1 : Nat) + 1 = (q.1 : Nat) ∨ (q.1 : Nat) + 1 = (p.1 : Nat)))

/-- Modelled from the spec: no cell is empty and no two orthogonally
adjacent cells hold tiles of equal value. -/
def NoMoveState (g : Grid) : Prop :=
  (∀ p : Fin 4 × Fin 4, (g p.1 p.2).isSome = true) ∧
  (∀ p q : Fin 4 × Fin 4, AdjacentCells p q →
    ∀ v : Nat, ¬(g p.1 p.2 = some v ∧ g q.1 q.2 = some v))

/-! ### Concrete boards and states used to evaluate the engine -/

/-- A board whose row `l` is `[2, 2, 2, 2]` and whose other cells are empty. -/
def rowAll2 (l : Fin 4) : Grid := fun i _ => if i = l then some 2 else none

/-- A board whose column `l` is `[2, 2, 2, 2]` and whose other cells are empty. -/
def colAll2 (l : Fin 4) : Grid := fun _ j => if j = l then some 2 else none

/-- Row `l` equal to `[4, 4, 0, 0]`, the rest empty. -/
def rowPairLow (l : Fin 4) : Grid :=
  fun i j => if i = l ∧ ((j : Nat) = 0 ∨ (j : Nat) = 1) then some 4 else none

/-- Row `l` equal to `[0, 0, 4, 4]`, the rest empty. -/
def rowPairHigh (l : Fin 4) : Grid :=
  fun i j => if i = l ∧ ((j : Nat) = 2 ∨ (j : Nat) = 3) then some 4 else none

/-- Column `l` equal to `[4, 4, 0, 0]`, the rest empty. -/
def colPairLow (l : Fin 4) : Grid :=
  fun i j => if j = l ∧ ((i : Nat) = 0 ∨ (i : Nat) = 1) then some 4 else none

/-- Column `l` equal to `[0, 0, 4, 4]`, the rest empty. -/
def colPairHigh (l : Fin 4) : Grid :=
  fun i j => if j = l ∧ ((i : Nat) = 2 ∨ (i : Nat) = 3) then some 4 else none

/-- A board holding a single tile of value 2 at `(0, 0)`. -/
def singleTileGrid : Grid := fun i j => if i = 0 ∧ j = 0 then some 2 else none

/-- A board holding a single tile of value 2 at `(0, 3)`. -/
def rightTileGrid : Grid := fun i j => if i = 0 ∧ j = 3 then some 2 else none

/-- A board whose row 0 starts `[2, 2, 0, 0]`, the rest empty. -/
def twoTwoGrid : Grid :=
  fun i j => if i = 0 ∧ ((j : Nat) = 0 ∨ (j : Nat) = 1) then some 2 else none

/-- An all-empty snapshot carrying a distinguishing score. -/
def snapK (n : Nat) : Snapshot :=
  { grid := fun _ _ => none, score := n, won := false, keepPlaying := false }

/-- A state in the middle of a game: one tile, full history of 5 snapshots. -/
def fullHistoryState : GameState :=
  { grid := singleTileGrid, score := 0, bestScore := 0, won := false,
    keepPlaying := false,
    gameHistory := [snapK 0, snapK 1, snapK 2, snapK 3, snapK 4],
    undoCount := 5 }

/-- A fresh-like state holding a single tile at `(0, 0)`. -/
def singleTileState : GameState :=
  { grid := singleTileGrid, score := 0, bestScore := 0, won := false,
    keepPlaying := false, gameHistory := [], undoCount := 5 }

/-- A fresh-like state holding a single tile at `(0, 3)`. -/
def rightTileState : GameState :=
  { grid := rightTileGrid, score := 0, bestScore := 0, won := false,
    keepPlaying := false, gameHistory := [], undoCount := 5 }

/-- A fresh-like state whose row 0 starts `[2, 2, 0, 0]`. -/
def twoTwoState : GameState :=
  { grid := twoTwoGrid, score := 0, bestScore := 0, won := false,
    keepPlaying := false, gameHistory := [], undoCount := 5 }

/-- A state with history available but no undo budget left. -/
def zeroUndoState : GameState :=
  { grid := singleTileGrid, score := 7, bestScore := 7, won := false,
    keepPlaying := false, gameHistory := [snapK 0], undoCount := 0 }

/-- A completely full board (all cells hold value 2). -/
def fullGrid : Grid := fun _ _ => some 2

/-- Six distinguishable snapshots, as left by six successful moves. -/
def sixSnaps : List Snapshot :=
  [snapK 0, snapK 1, snapK 2, snapK 3, snapK 4, snapK 5]

/-! ### Basic facts about board indexing -/

/-- Integer coordinates of a board index. -/
def posOf (a : Fin 4 × Fin 4) : Pos :=
  (((a.1 : Nat) : Int), ((a.2 : Nat) : Int))

lemma toIdx?_posOf (a : Fin 4 × Fin 4) : toIdx? (posOf a) = some a := by
  obtain ⟨i, j⟩ := a
  have hi : (i : Nat) < 4 := i.isLt
  have hj : (j : Nat) < 4 := j.isLt
  simp only [toIdx?, posOf]
  rw [dif_pos (by constructor <;> [omega; constructor <;> [omega; constructor <;> omega]])]
  simp only [Option.some.injEq, Prod.mk.injEq]
  constructor <;> [apply Fin.ext; apply Fin.ext] <;> simp

lemma posOf_of_toIdx? {p : Pos} {a : Fin 4 × Fin 4} (h : toIdx? p = some a) :
    posOf a = p := by
  unfold toIdx? at h
  split at h
  · rename_i hb
    simp only [Option.some.injEq] at h
    subst h
    simp only [posOf]
    obtain ⟨h1, h2, h3, h4⟩ := hb
    apply Prod.ext <;> simp <;> omega
  · simp at h

lemma toIdx?_injOn {p q : Pos} {a : Fin 4 × Fin 4}
    (hp : toIdx? p = some a) (hq : toIdx? q = some a) : p = q := by
  rw [← posOf_of_toIdx? hp, ← posOf_of_toIdx? hq]

lemma gAt_posOf (g : Grid) (a : Fin 4 × Fin 4) : gAt g (posOf a) = g a.1 a.2 := by
  simp [gAt, toIdx?_posOf]

lemma gAt_of_toIdx? {p : Pos} {a : Fin 4 × Fin 4} (h : toIdx? p = some a)
    (g : Grid) : gAt g p = g a.1 a.2 := by
  simp [gAt, h]

lemma gAt_some_toIdx? {g : Grid} {p : Pos} {v : Nat} (h : gAt g p = some v) :
    ∃ a : Fin 4 × Fin 4, toIdx? p = some a ∧ g a.1 a.2 = some v := by
  unfold gAt at h
  cases hi : toIdx? p with
  | none => rw [hi] at h; simp at h
  | some a => rw [hi] at h; exact ⟨a, rfl, h⟩

lemma setCell_of_toIdx? {p : Pos} {a : Fin 4 × Fin 4} (h : toIdx? p = some a)
    (g : Grid) (v : Option Nat) :
    setCell g p v = fun i j => if (i, j) = a then v else g i j := by
  simp [setCell, h]

lemma gAt_setCell_ne {p q : Pos} (g : Grid) (v : Option Nat) (hne : q ≠ p) :
    gAt (setCell g p v) q = gAt g q := by
  unfold setCell
  cases hp : toIdx? p with
  | none => rfl
  | some a =>
    unfold gAt
    cases hq : toIdx? q with
    | none => rfl
    | some b =>
      have hab : b ≠ a := by
        intro he
        exact hne (toIdx?_injOn hq (he ▸ hp))
      simp [Prod.mk.eta, hab]

lemma gAt_setCell_self {p : Pos} {a : Fin 4 × Fin 4} (h : toIdx? p = some a)
    (g : Grid) (v : Option Nat) : gAt (setCell g p v) p = v := by
  rw [setCell_of_toIdx? h, gAt_of_toIdx? h]
  simp [Prod.mk.eta]

/-! ### Counting tiles -/

lemma countTiles_setCell {p : Pos} {a : Fin 4 × Fin 4} (h : toIdx? p = some a)
    (g : Grid) (v : Option Nat) :
    countTiles (setCell g p v) + (if (g a.1 a.2).isSome then 1 else 0)
      = countTiles g + (if v.isSome then 1 else 0) := by
  rw [setCell_of_toIdx? h]
  unfold countTiles
  rw [Finset.card_filter, Finset.card_filter,
    ← Finset.sum_erase_add _ _ (Finset.mem_univ a),
    ← Finset.sum_erase_add _ _ (Finset.mem_univ a)]
  have hs :
      ∀ x ∈ Finset.univ.erase a,
        (if ((fun i j => if (i, j) = a then v else g i j) x.1 x.2).isSome then 1 else 0)
          = (if (g x.1 x.2).isSome then (1 : Nat) else 0) := by
    intro x hx
    have hxa : x ≠ a := (Finset.mem_erase.mp hx).1
    simp [Prod.mk.eta, hxa]
  rw [Finset.sum_congr rfl hs]
  simp [Prod.mk.eta]
  omega

lemma countTiles_le_sixteen (g : Grid) : countTiles g ≤ 16 := by
  have h := Finset.card_filter_le Finset.univ
    (fun p : Fin 4 × Fin 4 => (g p.1 p.2).isSome)
  simpa using h

lemma countTiles_le_of_empty {g : Grid} {a : Fin 4 × Fin 4}
    (h : g a.1 a.2 = none) : countTiles g ≤ 15 := by
  unfold countTiles
  have hsub : (Finset.univ.filter fun p : Fin 4 × Fin 4 => (g p.1 p.2).isSome)
      ⊆ Finset.univ.erase a := by
    intro x hx
    rcases Finset.mem_filter.mp hx with ⟨-, hx2⟩
    refine Finset.mem_erase.mpr ⟨?_, Finset.mem_univ x⟩
    intro he
    rw [he, h] at hx2
    simp at hx2
  calc (Finset.univ.filter fun p : Fin 4 × Fin 4 => (g p.1 p.2).isSome).card
      ≤ (Finset.univ.erase a).card := Finset.card_le_card hsub
    _ ≤ 15 := by
        rw [Finset.card_erase_of_mem (Finset.mem_univ a)]
        simp

lemma exists_empty_of_countTiles {g : Grid} (h : countTiles g ≤ 15) :
    ∃ a : Fin 4 × Fin 4, g a.1 a.2 = none := by
  by_contra hc
  push_neg at hc
  have hall : ∀ a : Fin 4 × Fin 4, (g a.1 a.2).isSome := by
    intro a
    cases ha : g a.1 a.2 with
    | none => exact absurd ha (hc a)
    | some v => simp
  have : countTiles g = 16 := by
    unfold countTiles
    rw [Finset.filter_eq_self.mpr (fun a _ => hall a)]
    simp
  omega

/-! ### The farthest-position walk -/

lemma farthestGo_fst (g : Grid) (vec : Pos) :
    ∀ (fuel : Nat) (prev next : Pos),
      (farthestGo g vec fuel prev next).1 = prev ∨
      (∃ a : Fin 4 × Fin 4, toIdx? (farthestGo g vec fuel prev next).1 = some a ∧
        g a.1 a.2 = none) := by
  intro fuel
  induction fuel with
  | zero => intro prev next; exact Or.inl rfl
  | succ n ih =>
    intro prev next
    unfold farthestGo
    split
    · rename_i hcond
      have hb : withinBounds next = true ∧ cellAvailable g next = true := by
        simpa using hcond
      have hgood : ∃ a : Fin 4 × Fin 4, toIdx? next = some a ∧ g a.1 a.2 = none := by
        have hw := of_decide_eq_true hb.1
        have hc := of_decide_eq_true hb.2
        have hidx : ∃ a : Fin 4 × Fin 4, toIdx? next = some a := by
          unfold toIdx?
          rw [dif_pos (by unfold gridSize at hw; push_cast at hw; omega)]
          exact ⟨_, rfl⟩
        obtain ⟨a, ha⟩ := hidx
        refine ⟨a, ha, ?_⟩
        rw [gAt_of_toIdx? ha] at hc
        exact hc
      rcases ih next (next.1 + vec.1, next.2 + vec.2) with h | h
      · rw [h]
        exact Or.inr hgood
      · exact Or.inr h
    · exact Or.inl rfl

lemma findFarthestPosition_fst (g : Grid) (cell vec : Pos) :
    (findFarthestPosition g cell vec).1 = cell ∨
    (∃ a : Fin 4 × Fin 4, toIdx? (findFarthestPosition g cell vec).1 = some a ∧
      g a.1 a.2 = none) :=
  farthestGo_fst g vec (2 * gridSize) cell (cell.1 + vec.1, cell.2 + vec.2)

/-! ### Empty cells -/

lemma toIdx?_natCast {r c : Nat} (hr : r < 4) (hc : c < 4) :
    toIdx? ((r : Int), (c : Int)) = some (⟨r, hr⟩, ⟨c, hc⟩) := by
  unfold toIdx?
  rw [dif_pos (by constructor <;> [omega; constructor <;> [omega; constructor <;> omega]])]
  simp only [Option.some.injEq, Prod.mk.injEq]
  constructor <;> apply Fin.ext <;> simp

lemma mem_emptyCells {g : Grid} {p : Pos} :
    p ∈ emptyCells g ↔ ∃ a : Fin 4 × Fin 4, toIdx? p = some a ∧ g a.1 a.2 = none := by
  unfold emptyCells
  rw [List.mem_flatMap]
  constructor
  · rintro ⟨r, hr, hp⟩
    rw [List.mem_filterMap] at hp
    obtain ⟨c, hc, hcell⟩ := hp
    rw [List.mem_range] at hr hc
    have hr4 : r < 4 := by simpa [gridSize] using hr
    have hc4 : c < 4 := by simpa [gridSize] using hc
    split at hcell
    · rename_i hnone
      have hp' : p = ((r : Int), (c : Int)) := by
        cases hcell
        rfl
      subst hp'
      refine ⟨(⟨r, hr4⟩, ⟨c, hc4⟩), toIdx?_natCast hr4 hc4, ?_⟩
      rw [gAt_of_toIdx? (toIdx?_natCast hr4 hc4)] at hnone
      exact hnone
    · simp at hcell
  · rintro ⟨a, ha, hempty⟩
    refine ⟨(a.1 : Nat), ?_, ?_⟩
    · rw [List.mem_range]
      simpa [gridSize] using a.1.isLt
    · rw [List.mem_filterMap]
      refine ⟨(a.2 : Nat), ?_, ?_⟩
      · rw [List.mem_range]
        simpa [gridSize] using a.2.isLt
      · have hpos : (((a.1 : Nat) : Int), ((a.2 : Nat) : Int)) = posOf a := rfl
        rw [hpos, gAt_posOf, if_pos hempty, posOf_of_toIdx? ha]

lemma emptyCells_ne_nil {g : Grid} {a : Fin 4 × Fin 4} (h : g a.1 a.2 = none) :
    emptyCells g ≠ [] := by
  intro hnil
  have hm : posOf a ∈ emptyCells g :=
    mem_emptyCells.mpr ⟨a, toIdx?_posOf a, h⟩
  rw [hnil] at hm
  simp at hm

/-! ### Conservation through one traversal step -/

lemma mergeCount_append_pair (es : List GameEvent) (p q : Pos) (v w : Nat) :
    mergeCount (es ++ [GameEvent.moveEv p q v, GameEvent.mergeEv q w])
      = mergeCount es + 1 := by
  simp [mergeCount, List.countP_append, List.countP_cons]

lemma mergeCount_append_single (es : List GameEvent) (p q : Pos) (v : Nat) :
    mergeCount (es ++ [GameEvent.moveEv p q v]) = mergeCount es := by
  simp [mergeCount, List.countP_append, List.countP_cons]

lemma processCell_spec (vec : Pos) (acc : MoveAcc) (p : Pos) :
    (countTiles (processCell vec acc p).grid + mergeCount (processCell vec acc p).events
       = countTiles acc.grid + mergeCount acc.events)
    ∧ ((acc.moved = true → countTiles acc.grid ≤ 15) →
        (processCell vec acc p).moved = true →
          countTiles (processCell vec acc p).grid ≤ 15) := by
  obtain ⟨fp, hfp⟩ : ∃ q, findFarthestPosition acc.grid p vec = q := ⟨_, rfl⟩
  cases hg : gAt acc.grid p with
  | none =>
    simp only [processCell, hg]
    exact ⟨trivial, fun h => h⟩
  | some tv =>
    obtain ⟨a, hpa, hga⟩ := gAt_some_toIdx? hg
    simp only [processCell, hg, hfp]
    split
    · -- merge branch
      rename_i hcond
      obtain ⟨hnext, -⟩ := hcond
      obtain ⟨b, hpb, hgb⟩ := gAt_some_toIdx? hnext
      have h1 := countTiles_setCell hpb acc.grid (some (tv * 2))
      rw [hgb] at h1
      simp only [Option.isSome_some, if_true] at h1
      have h2 := countTiles_setCell hpa (setCell acc.grid fp.2 (some (tv * 2))) none
      have hsome : ((setCell acc.grid fp.2 (some (tv * 2))) a.1 a.2).isSome = true := by
        rw [setCell_of_toIdx? hpb]
        by_cases hab : a = b
        · simp [Prod.mk.eta, hab]
        · simp only [Prod.mk.eta, if_neg hab]
          rw [hga]
          rfl
      rw [hsome] at h2
      simp at h2
      constructor
      · dsimp only
        rw [mergeCount_append_pair]
        omega
      · intro _ _
        dsimp only
        have h16 := countTiles_le_sixteen acc.grid
        omega
    · split
      · -- relocate branch
        rename_i hne
        have hfar := findFarthestPosition_fst acc.grid p vec
        rw [hfp] at hfar
        obtain ⟨f, hpf, hgf⟩ := hfar.resolve_left hne
        have haf : a ≠ f := by
          intro he
          apply hne
          have hpf' : toIdx? p = some f := by rw [hpa, he]
          exact toIdx?_injOn hpf hpf'
        have h1 := countTiles_setCell hpf acc.grid (some tv)
        rw [hgf] at h1
        simp at h1
        have h2 := countTiles_setCell hpa (setCell acc.grid fp.1 (some tv)) none
        have hsome : ((setCell acc.grid fp.1 (some tv)) a.1 a.2).isSome = true := by
          rw [setCell_of_toIdx? hpf]
          simp only [Prod.mk.eta, if_neg haf]
          rw [hga]
          rfl
        rw [hsome] at h2
        simp at h2
        have hle := countTiles_le_of_empty hgf
        constructor
        · dsimp only
          rw [mergeCount_append_single]
          omega
        · intro _ _
          dsimp only
          omega
      · exact ⟨rfl, fun h => h⟩

/-! ### Conservation through the whole traversal -/

lemma foldl_processCell_count (vec : Pos) :
    ∀ (cells : List Pos) (acc : MoveAcc),
      countTiles (cells.foldl (processCell vec) acc).grid
          + mergeCount (cells.foldl (processCell vec) acc).events
        = countTiles acc.grid + mergeCount acc.events := by
  intro cells
  induction cells with
  | nil => intro acc; rfl
  | cons p cells ih =>
    intro acc
    rw [List.foldl_cons, ih (processCell vec acc p)]
    exact (processCell_spec vec acc p).1

lemma foldl_processCell_moved (vec : Pos) :
    ∀ (cells : List Pos) (acc : MoveAcc),
      (acc.moved = true → countTiles acc.grid ≤ 15) →
      ((cells.foldl (processCell vec) acc).moved = true →
        countTiles (cells.foldl (processCell vec) acc).grid ≤ 15) := by
  intro cells
  induction cells with
  | nil => intro acc h; exact h
  | cons p cells ih =>
    intro acc h
    rw [List.foldl_cons]
    exact ih (processCell vec acc p) ((processCell_spec vec acc p).2 h)

lemma moveCore_count (g : Grid) (sc bs : Nat) (vec : Pos) :
    countTiles (moveCore g sc bs vec).grid + mergeCount (moveCore g sc bs vec).events
      = countTiles g := by
  unfold moveCore
  have h := foldl_processCell_count vec
    (((buildTraversals vec).1).flatMap fun r => ((buildTraversals vec).2).map fun c => (r, c))
    { grid := g, merged := fun _ _ => false, moved := false,
      score := sc, bestScore := bs, events := [] }
  simpa [mergeCount] using h

lemma moveCore_moved_le (g : Grid) (sc bs : Nat) (vec : Pos)
    (h : (moveCore g sc bs vec).moved = true) :
    countTiles (moveCore g sc bs vec).grid ≤ 15 := by
  unfold moveCore at h ⊢
  exact foldl_processCell_moved vec _ _ (by intro hf; cases hf) h

/-! ### The spawn -/

lemma addRandomTile_spawns {g : Grid} {k : Nat} {b : Bool}
    (hk : k < (emptyCells g).length) :
    (addRandomTile g k b).2 = true ∧
    countTiles (addRandomTile g k b).1 = countTiles g + 1 ∧
    (∃ a : Fin 4 × Fin 4, toIdx? ((emptyCells g).getD k ((0 : Int), (0 : Int))) = some a ∧
      g a.1 a.2 = none ∧
      (addRandomTile g k b).1 a.1 a.2 = some (if b then 2 else 4)) := by
  have hne : (emptyCells g).length ≠ 0 := by omega
  have hmem : (emptyCells g).getD k ((0 : Int), (0 : Int)) ∈ emptyCells g := by
    rw [List.getD_eq_getElem _ _ hk]
    exact List.getElem_mem hk
  obtain ⟨a, hpa, hga⟩ := mem_emptyCells.mp hmem
  have hres : addRandomTile g k b =
      (setCell g ((emptyCells g).getD k ((0 : Int), (0 : Int)))
        (some (if b then 2 else 4)), true) := by
    unfold addRandomTile
    rw [if_neg hne]
  refine ⟨by rw [hres], ?_, a, hpa, hga, ?_⟩
  · rw [hres]
    have hc := countTiles_setCell hpa g (some (if b then 2 else 4))
    rw [hga] at hc
    simpa using hc
  · rw [hres]
    have := gAt_setCell_self hpa g (some (if b then 2 else 4))
    rw [gAt_of_toIdx? hpa] at this
    exact this

/-! ### History push, pop and the shape of `move` -/

lemma pushHistory_getLast? (h : List Snapshot) (x : Snapshot) :
    (pushHistory h x).getLast? = some x := by
  simp only [pushHistory]
  split
  · rename_i hlen
    rw [List.length_append, List.length_singleton] at hlen
    rw [List.drop_append_of_le_length (by omega)]
    exact List.getLast?_concat _
  · exact List.getLast?_concat _

lemma pushHistory_ne_nil (h : List Snapshot) (x : Snapshot) :
    pushHistory h x ≠ [] := by
  intro hn
  have hl := pushHistory_getLast? h x
  rw [hn] at hl
  simp at hl

lemma pushHistory_cases (h : List Snapshot) (x : Snapshot) :
    pushHistory h x = h ++ [x] ∨ pushHistory h x = (h ++ [x]).drop 1 := by
  simp only [pushHistory]
  split
  · exact Or.inr rfl
  · exact Or.inl rfl

lemma checkGameState_grid (s : GameState) :
    (checkGameState s).grid = s.grid := by
  unfold checkGameState
  split <;> rfl

lemma checkGameState_fields (s : GameState) :
    (checkGameState s).score = s.score ∧
    (checkGameState s).keepPlaying = s.keepPlaying ∧
    (checkGameState s).gameHistory = s.gameHistory ∧
    (checkGameState s).undoCount = s.undoCount := by
  unfold checkGameState
  split <;> exact ⟨rfl, rfl, rfl, rfl⟩

lemma move_snd (s : GameState) (d : String) (k : Nat) (b : Bool) :
    (move s d k b).2 = (moveCore s.grid s.score s.bestScore (getVector d)).moved := by
  by_cases h : (moveCore s.grid s.score s.bestScore (getVector d)).moved
  all_goals
    simp only [move, saveGameState]
    rw [show (({ s with gameHistory := pushHistory s.gameHistory (snapOf s) } :
        GameState)).grid = s.grid from rfl]
    simp [h]

lemma move_of_moved {s : GameState} {d : String} {k : Nat} {b : Bool}
    (h : (moveCore s.grid s.score s.bestScore (getVector d)).moved = true) :
    move s d k b =
      (checkGameState
        { grid := (addRandomTile (moveCore s.grid s.score s.bestScore (getVector d)).grid k b).1,
          score := (moveCore s.grid s.score s.bestScore (getVector d)).score,
          bestScore := (moveCore s.grid s.score s.bestScore (getVector d)).bestScore,
          won := s.won,
          keepPlaying := s.keepPlaying,
          gameHistory := pushHistory s.gameHistory (snapOf s),
          undoCount := s.undoCount }, true) := by
  simp only [move, saveGameState]
  rw [show (({ s with gameHistory := pushHistory s.gameHistory (snapOf s) } :
      GameState)).grid = s.grid from rfl]
  simp [h]

lemma undo_success {s : GameState} {prev : Snapshot}
    (h : s.gameHistory.getLast? = some prev) (hu : 0 < s.undoCount) :
    undo s = ({ s with
        grid := prev.grid,
        score := prev.score,
        won := prev.won,
        keepPlaying := prev.keepPlaying,
        gameHistory := s.gameHistory.dropLast,
        undoCount := s.undoCount - 1 }, true) := by
  have hne : s.gameHistory ≠ [] := by
    intro hn
    rw [hn] at h
    simp at h
  unfold undo
  rw [if_neg (by simpa [List.length_eq_zero] using hne), if_neg (by omega), h]

/-! ### Claim theorems -/

/-- C1: the claim fails on the code.  A no-op move leaves score, undoCount
and grid unchanged, spawns nothing and returns `false`; but because `move`
speculatively pushes a snapshot (evicting the oldest entry when the
history already holds 5) and then only pops the speculative entry, a no-op
move from a full history shrinks the history from 5 to 4 entries and
permanently discards the oldest snapshot. -/
theorem noop_move_at_full_history_drops_oldest :
    (move fullHistoryState "left" 0 true).2 = false ∧
    (move fullHistoryState "left" 0 true).1.grid = fullHistoryState.grid ∧
    (move fullHistoryState "left" 0 true).1.score = 0 ∧
    (move fullHistoryState "left" 0 true).1.undoCount = 5 ∧
    fullHistoryState.gameHistory.length = 5 ∧
    (move fullHistoryState "left" 0 true).1.gameHistory
      = [snapK 1, snapK 2, snapK 3, snapK 4] := by
  decide

/-- C4: the claim fails on the `GameEngine` code.  An illegal direction
string is mapped by `getVector` to the zero vector instead of being
rejected, on which every occupied cell merges with itself: the board is
wiped, the score grows, the history is pushed, and `move` returns `true`.
(The browser engine's `getVector` instead yields `undefined`, making
`buildTraversals` throw before any mutation.) -/
theorem invalid_direction_self_merges :
    getVectorScript "diagonal" = none ∧
    getVector "diagonal" = (0, 0) ∧
    (move singleTileState "diagonal" 8 true).2 = true ∧
    (move singleTileState "diagonal" 8 true).1.score = 4 ∧
    (move singleTileState "diagonal" 8 true).1.grid 0 0 = none ∧
    (move singleTileState "diagonal" 8 true).1.gameHistory.length = 1 := by
  decide

/-- C2: a line `[2, 2, 2, 2]` moved toward either end, in every row and
column and for all four directions, produces `[4, 4, 0, 0]` toward the
moved end before the random spawn: exactly two merge events occur and
score gains 8 (so no tile produced by a merge is merged again in the same
call). -/
theorem merge_pairs_single_pass :
    ∀ l : Fin 4,
      ((moveCore (rowAll2 l) 0 0 (getVector "left")).grid = rowPairLow l ∧
        (moveCore (rowAll2 l) 0 0 (getVector "left")).score = 8 ∧
        mergeCount (moveCore (rowAll2 l) 0 0 (getVector "left")).events = 2) ∧
      ((moveCore (rowAll2 l) 0 0 (getVector "right")).grid = rowPairHigh l ∧
        (moveCore (rowAll2 l) 0 0 (getVector "right")).score = 8 ∧
        mergeCount (moveCore (rowAll2 l) 0 0 (getVector "right")).events = 2) ∧
      ((moveCore (colAll2 l) 0 0 (getVector "up")).grid = colPairLow l ∧
        (moveCore (colAll2 l) 0 0 (getVector "up")).score = 8 ∧
        mergeCount (moveCore (colAll2 l) 0 0 (getVector "up")).events = 2) ∧
      ((moveCore (colAll2 l) 0 0 (getVector "down")).grid = colPairHigh l ∧
        (moveCore (colAll2 l) 0 0 (getVector "down")).score = 8 ∧
        mergeCount (moveCore (colAll2 l) 0 0 (getVector "down")).events = 2) := by
  decide

lemma undo_fields {t : GameState} {prev : Snapshot}
    (h : t.gameHistory.getLast? = some prev) (hu : 0 < t.undoCount) :
    (undo t).2 = true ∧
    (undo t).1.grid = prev.grid ∧
    (undo t).1.score = prev.score ∧
    (undo t).1.won = prev.won ∧
    (undo t).1.keepPlaying = prev.keepPlaying ∧
    (undo t).1.undoCount = t.undoCount - 1 := by
  rw [undo_success h hu]
  exact ⟨rfl, rfl, rfl, rfl, rfl, rfl⟩

lemma move_result_fields {s : GameState} {d : String} {k : Nat} {b : Bool}
    (h : (move s d k b).2 = true) :
    (move s d k b).1.gameHistory = pushHistory s.gameHistory (snapOf s) ∧
    (move s d k b).1.undoCount = s.undoCount := by
  rw [move_snd] at h
  rw [move_of_moved h]
  exact ⟨(checkGameState_fields _).2.2.1, (checkGameState_fields _).2.2.2⟩

/-- C3: whenever the undo budget is positive and `move(d)` succeeds for a
legal direction, an immediate `undo()` returns `true`, restores grid,
score, won and keepPlaying exactly to their pre-move values, and leaves
`undoCount` decremented by exactly one (the consumed undo is not given
back). -/
theorem move_then_undo_roundtrip (s : GameState) (d : String) (k : Nat) (b : Bool)
    (hd : d = "up" ∨ d = "down" ∨ d = "left" ∨ d = "right")
    (hu : 0 < s.undoCount)
    (hm : (move s d k b).2 = true) :
    (undo (move s d k b).1).2 = true ∧
    (undo (move s d k b).1).1.grid = s.grid ∧
    (undo (move s d k b).1).1.score = s.score ∧
    (undo (move s d k b).1).1.won = s.won ∧
    (undo (move s d k b).1).1.keepPlaying = s.keepPlaying ∧
    (undo (move s d k b).1).1.undoCount = s.undoCount - 1 := by
  obtain ⟨hh, hc⟩ := move_result_fields hm
  have hlast : (move s d k b).1.gameHistory.getLast? = some (snapOf s) := by
    rw [hh, pushHistory_getLast?]
  have hu' : 0 < (move s d k b).1.undoCount := by
    rw [hc]
    exact hu
  have h := undo_fields hlast hu'
  refine ⟨h.1, h.2.1, h.2.2.1, h.2.2.2.1, h.2.2.2.2.1, ?_⟩
  rw [h.2.2.2.2.2, hc]

/-- Witness for C3 at a concrete input: a single tile at `(0, 3)` moved
left relocates, and the undo restores the pre-move state. -/
theorem move_then_undo_roundtrip_witness :
    (0 < rightTileState.undoCount ∧ (move rightTileState "left" 0 true).2 = true) ∧
    ((undo (move rightTileState "left" 0 true).1).2 = true ∧
      (undo (move rightTileState "left" 0 true).1).1.grid = rightTileState.grid ∧
      (undo (move rightTileState "left" 0 true).1).1.score = rightTileState.score ∧
      (undo (move rightTileState "left" 0 true).1).1.won = rightTileState.won ∧
      (undo (move rightTileState "left" 0 true).1).1.keepPlaying
        = rightTileState.keepPlaying ∧
      (undo (move rightTileState "left" 0 true).1).1.undoCount
        = rightTileState.undoCount - 1) :=
  ⟨⟨by decide, by decide⟩,
    move_then_undo_roundtrip rightTileState "left" 0 true
      (Or.inr (Or.inr (Or.inl rfl))) (by decide) (by decide)⟩

/-- C7: a successful `move` with `M` merge events changes the number of
occupied cells from `n` to `n - M + 1` (stated additively as
`after + M = before + 1`): every merge removes one tile and the spawn
always adds one.  The hypothesis `hk` states that the drawn spawn index is
in range, which `Math.floor(Math.random() * length)` guarantees; the
grid-full no-spawn exception of the claim never occurs on the success path
(see the C10 theorem). -/
theorem move_tile_conservation (s : GameState) (d : String) (k : Nat) (b : Bool)
    (hm : (move s d k b).2 = true)
    (hk : k < (emptyCells (moveCore s.grid s.score s.bestScore (getVector d)).grid).length) :
    countTiles (move s d k b).1.grid
        + mergeCount (moveCore s.grid s.score s.bestScore (getVector d)).events
      = countTiles s.grid + 1 := by
  rw [move_snd] at hm
  rw [move_of_moved hm]
  have hgr :
      (checkGameState
        { grid := (addRandomTile (moveCore s.grid s.score s.bestScore (getVector d)).grid k b).1,
          score := (moveCore s.grid s.score s.bestScore (getVector d)).score,
          bestScore := (moveCore s.grid s.score s.bestScore (getVector d)).bestScore,
          won := s.won,
          keepPlaying := s.keepPlaying,
          gameHistory := pushHistory s.gameHistory (snapOf s),
          undoCount := s.undoCount } : GameState).grid
      = (addRandomTile (moveCore s.grid s.score s.bestScore (getVector d)).grid k b).1 :=
    checkGameState_grid _
  rw [show ((checkGameState
        { grid := (addRandomTile (moveCore s.grid s.score s.bestScore (getVector d)).grid k b).1,
          score := (moveCore s.grid s.score s.bestScore (getVector d)).score,
          bestScore := (moveCore s.grid s.score s.bestScore (getVector d)).bestScore,
          won := s.won,
          keepPlaying := s.keepPlaying,
          gameHistory := pushHistory s.gameHistory (snapOf s),
          undoCount := s.undoCount }, true) : GameState × Bool).1
      = checkGameState
        { grid := (addRandomTile (moveCore s.grid s.score s.bestScore (getVector d)).grid k b).1,
          score := (moveCore s.grid s.score s.bestScore (getVector d)).score,
          bestScore := (moveCore s.grid s.score s.bestScore (getVector d)).bestScore,
          won := s.won,
          keepPlaying := s.keepPlaying,
          gameHistory := pushHistory s.gameHistory (snapOf s),
          undoCount := s.undoCount } from rfl, hgr]
  rw [(addRandomTile_spawns hk).2.1]
  have hcount := moveCore_count s.grid s.score s.bestScore (getVector d)
  omega

/-- Witness for C7: row `[2, 2, 0, 0]` moved left merges once (`M = 1`),
going from 2 tiles to 2 tiles (2 - 1 + 1). -/
theorem move_tile_conservation_witness :
    ((move twoTwoState "left" 0 true).2 = true ∧
      0 < (emptyCells (moveCore twoTwoState.grid twoTwoState.score
        twoTwoState.bestScore (getVector "left")).grid).length) ∧
    countTiles (move twoTwoState "left" 0 true).1.grid
        + mergeCount (moveCore twoTwoState.grid twoTwoState.score
            twoTwoState.bestScore (getVector "left")).events
      = countTiles twoTwoState.grid + 1 :=
  ⟨⟨by decide, by decide⟩,
    move_tile_conservation twoTwoState "left" 0 true (by decide) (by decide)⟩

lemma move_grid_of_moved {s : GameState} {d : String} {k : Nat} {b : Bool}
    (h : (moveCore s.grid s.score s.bestScore (getVector d)).moved = true) :
    (move s d k b).1.grid
      = (addRandomTile (moveCore s.grid s.score s.bestScore (getVector d)).grid k b).1 := by
  rw [move_of_moved h]
  exact checkGameState_grid _

/-- C10: when `move` succeeds, the board cannot be full at the moment
`addRandomTile` is called (a relocation needs an empty landing cell and a
merge strictly decreases the tile count, so at most 15 cells are occupied
after the traversal); hence the spawn reports success, and — for any
in-range index draw, as `Math.floor(Math.random() * length)` always is —
exactly one tile is added. -/
theorem successful_move_always_spawns (s : GameState) (d : String) (k : Nat) (b : Bool)
    (hm : (move s d k b).2 = true) :
    emptyCells (moveCore s.grid s.score s.bestScore (getVector d)).grid ≠ [] ∧
    (addRandomTile (moveCore s.grid s.score s.bestScore (getVector d)).grid k b).2 = true ∧
    (k < (emptyCells (moveCore s.grid s.score s.bestScore (getVector d)).grid).length →
      countTiles (move s d k b).1.grid
        = countTiles (moveCore s.grid s.score s.bestScore (getVector d)).grid + 1) := by
  rw [move_snd] at hm
  have hle := moveCore_moved_le s.grid s.score s.bestScore (getVector d) hm
  obtain ⟨a, ha⟩ := exists_empty_of_countTiles hle
  have hne := emptyCells_ne_nil ha
  refine ⟨hne, ?_, ?_⟩
  · simp only [addRandomTile]
    rw [if_neg (by simpa [List.length_eq_zero] using hne)]
  · intro hk
    rw [move_grid_of_moved hm]
    exact (addRandomTile_spawns hk).2.1

/-- Witness for C10: a single tile at `(0, 0)` moved right relocates; an
empty cell remains for the spawn and the tile count goes from 1 to 2. -/
theorem successful_move_always_spawns_witness :
    (move singleTileState "right" 0 true).2 = true ∧
    (emptyCells (moveCore singleTileState.grid singleTileState.score
        singleTileState.bestScore (getVector "right")).grid ≠ [] ∧
      (addRandomTile (moveCore singleTileState.grid singleTileState.score
        singleTileState.bestScore (getVector "right")).grid 0 true).2 = true ∧
      (0 < (emptyCells (moveCore singleTileState.grid singleTileState.score
          singleTileState.bestScore (getVector "right")).grid).length →
        countTiles (move singleTileState "right" 0 true).1.grid
          = countTiles (moveCore singleTileState.grid singleTileState.score
              singleTileState.bestScore (getVector "right")).grid + 1)) :=
  ⟨by decide, successful_move_always_spawns singleTileState "right" 0 true (by decide)⟩

/-- C8: `undo()` returns `false` and changes nothing when the history is
empty or the undo budget is exhausted (a return value, not an exception —
the embedded `undo` is total); on success it pops the most recent
snapshot, overwrites grid/score/won/keepPlaying from it and decrements
`undoCount`; and `restart()` resets the undo budget to 5 and clears the
history. -/
theorem undo_restart_contract :
    (∀ s : GameState, s.gameHistory = [] → undo s = (s, false)) ∧
    (∀ s : GameState, s.undoCount = 0 → undo s = (s, false)) ∧
    (∀ (s : GameState) (prev : Snapshot),
        s.gameHistory.getLast? = some prev → 0 < s.undoCount →
        undo s = ({ s with
            grid := prev.grid,
            score := prev.score,
            won := prev.won,
            keepPlaying := prev.keepPlaying,
            gameHistory := s.gameHistory.dropLast,
            undoCount := s.undoCount - 1 }, true)) ∧
    (∀ (s : GameState) (k1 k2 : Nat) (b1 b2 : Bool),
        (restart s k1 b1 k2 b2).undoCount = 5 ∧
        (restart s k1 b1 k2 b2).gameHistory = []) := by
  refine ⟨?_, ?_, ?_, ?_⟩
  · intro s h
    unfold undo
    rw [if_pos (by rw [h]; rfl)]
  · intro s h
    unfold undo
    by_cases hh : s.gameHistory.length = 0
    · rw [if_pos hh]
    · rw [if_neg hh, if_pos (by omega)]
  · intro s prev h hu
    exact undo_success h hu
  · intro s k1 k2 b1 b2
    exact ⟨rfl, rfl⟩

/-- Witness for C8 at concrete states: empty history, exhausted budget,
a successful pop, and a restart. -/
theorem undo_restart_contract_witness :
    (singleTileState.gameHistory = [] ∧
      undo singleTileState = (singleTileState, false)) ∧
    (zeroUndoState.undoCount = 0 ∧
      undo zeroUndoState = (zeroUndoState, false)) ∧
    (fullHistoryState.gameHistory.getLast? = some (snapK 4) ∧
      0 < fullHistoryState.undoCount ∧
      undo fullHistoryState = ({ fullHistoryState with
          grid := (snapK 4).grid,
          score := (snapK 4).score,
          won := (snapK 4).won,
          keepPlaying := (snapK 4).keepPlaying,
          gameHistory := fullHistoryState.gameHistory.dropLast,
          undoCount := fullHistoryState.undoCount - 1 }, true)) ∧
    ((restart singleTileState 0 true 0 true).undoCount = 5 ∧
      (restart singleTileState 0 true 0 true).gameHistory = []) :=
  ⟨⟨rfl, undo_restart_contract.1 singleTileState rfl⟩,
    ⟨rfl, undo_restart_contract.2.1 zeroUndoState rfl⟩,
    ⟨by decide, by decide,
      undo_restart_contract.2.2.1 fullHistoryState (snapK 4) (by decide) (by decide)⟩,
    undo_restart_contract.2.2.2 singleTileState 0 0 true true⟩

lemma foldl_pushHistory (xs : List Snapshot) :
    List.foldl pushHistory [] xs = xs.drop (xs.length - 5) := by
  induction xs using List.reverseRecOn with
  | nil => rfl
  | append_singleton ys x ih =>
    rw [List.foldl_append, List.foldl_cons, List.foldl_nil, ih]
    simp only [pushHistory]
    have hlen : (ys.drop (ys.length - 5)).length = ys.length - (ys.length - 5) :=
      List.length_drop _ _
    by_cases h : ys.length ≤ 4
    · rw [if_neg (by
        rw [List.length_append, List.length_singleton, hlen]
        omega)]
      have h0 : ys.length - 5 = 0 := by omega
      have h0' : (ys ++ [x]).length - 5 = 0 := by
        rw [List.length_append, List.length_singleton]
        omega
      rw [h0, h0', List.drop_zero, List.drop_zero]
    · rw [if_pos (by
        rw [List.length_append, List.length_singleton, hlen]
        omega)]
      have h1 : (1 : Nat) ≤ (ys.drop (ys.length - 5)).length := by
        rw [hlen]
        omega
      rw [List.drop_append_of_le_length h1, List.drop_drop]
      have h2 : (ys ++ [x]).length - 5 = (ys.length - 5) + 1 := by
        rw [List.length_append, List.length_singleton]
        omega
      rw [h2, List.drop_append_of_le_length (by omega)]

/-- C6: the history mechanism is a capacity-5 FIFO buffer.  A successful
`move` pushes the pre-move snapshot through `pushHistory`; `pushHistory`
either appends or appends and drops exactly the oldest entry (never a
middle one); starting from an empty history, `N` pushes retain exactly the
last `min N 5` snapshots, so after `N > 5` successful moves the history
has length 5 and its oldest entry is the snapshot taken before move
`N - 4`. -/
theorem history_capacity_fifo :
    (∀ (s : GameState) (d : String) (k : Nat) (b : Bool),
        (move s d k b).2 = true →
        (move s d k b).1.gameHistory = pushHistory s.gameHistory (snapOf s)) ∧
    (∀ (h : List Snapshot) (x : Snapshot),
        pushHistory h x = h ++ [x] ∨ pushHistory h x = (h ++ [x]).drop 1) ∧
    (∀ xs : List Snapshot,
        List.foldl pushHistory [] xs = xs.drop (xs.length - 5)) ∧
    (∀ xs : List Snapshot, 5 < xs.length →
        (List.foldl pushHistory [] xs).length = 5 ∧
        (List.foldl pushHistory [] xs).head? = xs[xs.length - 5]?) := by
  refine ⟨?_, pushHistory_cases, foldl_pushHistory, ?_⟩
  · intro s d k b h
    exact (move_result_fields h).1
  · intro xs hx
    rw [foldl_pushHistory]
    constructor
    · rw [List.length_drop]
      omega
    · exact List.head?_drop _ _

/-- Witness for C6: six pushes from empty retain the last five snapshots,
with the oldest being the second pushed. -/
theorem history_capacity_fifo_witness :
    5 < sixSnaps.length ∧
    (List.foldl pushHistory [] sixSnaps).length = 5 ∧
    (List.foldl pushHistory [] sixSnaps).head? = sixSnaps[sixSnaps.length - 5]? :=
  ⟨by decide, history_capacity_fifo.2.2.2 sixSnaps (by decide)⟩

/-! ### The spawn contract (C9) -/

lemma withinBounds_iff {p : Pos} :
    withinBounds p = true ↔ 0 ≤ p.1 ∧ p.1 < 4 ∧ 0 ≤ p.2 ∧ p.2 < 4 := by
  unfold withinBounds gridSize
  rw [decide_eq_true_eq]
  norm_num

lemma toIdx?_isSome_of_withinBounds {p : Pos} (h : withinBounds p = true) :
    ∃ a : Fin 4 × Fin 4, toIdx? p = some a := by
  rw [withinBounds_iff] at h
  unfold toIdx?
  rw [dif_pos h]
  exact ⟨_, rfl⟩

lemma withinBounds_of_toIdx? {p : Pos} {a : Fin 4 × Fin 4}
    (h : toIdx? p = some a) : withinBounds p = true := by
  rw [withinBounds_iff]
  unfold toIdx? at h
  split at h
  · rename_i hb
    exact hb
  · cases h

lemma mem_emptyCells_iff {g : Grid} {p : Pos} :
    p ∈ emptyCells g ↔ withinBounds p = true ∧ gAt g p = none := by
  rw [mem_emptyCells]
  constructor
  · rintro ⟨a, ha, hg⟩
    refine ⟨withinBounds_of_toIdx? ha, ?_⟩
    rw [gAt_of_toIdx? ha]
    exact hg
  · rintro ⟨hw, hg⟩
    obtain ⟨a, ha⟩ := toIdx?_isSome_of_withinBounds hw
    refine ⟨a, ha, ?_⟩
    rw [gAt_of_toIdx? ha] at hg
    exact hg

lemma emptyCells_nodup (g : Grid) : (emptyCells g).Nodup := by
  unfold emptyCells
  rw [List.nodup_flatMap]
  constructor
  · intro r _
    apply List.Nodup.filterMap ?_ (List.nodup_range _)
    intro c c' x hx hx'
    split at hx
    · rw [Option.mem_def, Option.some.injEq] at hx
      split at hx'
      · rw [Option.mem_def, Option.some.injEq] at hx'
        have : ((c : Int)) = ((c' : Int)) := by
          rw [← hx] at hx'
          exact (congrArg Prod.snd hx').symm
        exact_mod_cast this
      · cases hx'
    · cases hx
  · have hpw := List.pairwise_lt_range gridSize
    apply hpw.imp
    intro r r' hlt
    intro x hx hx'
    have hfst : ∀ (n : Nat) (y : Pos),
        y ∈ (List.range gridSize).filterMap (fun (c : Nat) =>
          if gAt g ((n : Int), (c : Int)) = none
          then some ((n : Int), (c : Int)) else none) →
        y.1 = (n : Int) := by
      intro n y hy
      rw [List.mem_filterMap] at hy
      obtain ⟨c, -, hcy⟩ := hy
      split at hcy
      · cases hcy
        rfl
      · cases hcy
    have h1 := hfst r x hx
    have h2 := hfst r' x hx'
    rw [h1] at h2
    have : r = r' := by exact_mod_cast h2
    omega

lemma randomIndex_lt {q : ℚ} {len : Nat} (h0 : 0 ≤ q) (h1 : q < 1)
    (hlen : 0 < len) : randomIndex q len < len := by
  unfold randomIndex
  have hnn : (0 : ℚ) ≤ q * (len : ℚ) := mul_nonneg h0 (by positivity)
  have hf0 : 0 ≤ ⌊q * (len : ℚ)⌋ := Int.floor_nonneg.mpr hnn
  have hfl : ⌊q * (len : ℚ)⌋ < (len : ℤ) := by
    rw [Int.floor_lt]
    push_cast
    calc q * (len : ℚ) < 1 * (len : ℚ) :=
          mul_lt_mul_of_pos_right h1 (by exact_mod_cast hlen)
      _ = (len : ℚ) := one_mul _
  omega

lemma randomIndex_eq_iff {q : ℚ} {len j : Nat} (h0 : 0 ≤ q) :
    randomIndex q len = j ↔
      ((j : ℚ) ≤ q * (len : ℚ) ∧ q * (len : ℚ) < (j : ℚ) + 1) := by
  unfold randomIndex
  have hnn : (0 : ℚ) ≤ q * (len : ℚ) := mul_nonneg h0 (by positivity)
  have hf0 : 0 ≤ ⌊q * (len : ℚ)⌋ := Int.floor_nonneg.mpr hnn
  rw [show (Int.toNat ⌊q * (len : ℚ)⌋ = j ↔ ⌊q * (len : ℚ)⌋ = (j : ℤ)) from by omega]
  rw [Int.floor_eq_iff]
  push_cast
  exact Iff.rfl

lemma addRandomTile_eq {g : Grid} {k : Nat} (b : Bool)
    (hk : k < (emptyCells g).length) :
    addRandomTile g k b =
      (setCell g ((emptyCells g).getD k ((0 : Int), (0 : Int)))
        (some (if b then 2 else 4)), true) := by
  unfold addRandomTile
  rw [if_neg (by omega)]

/-- C9: the spawn contract, with the two `Math.random()` draws modeled as
inputs.  With no empty cell, `addRandomTile` is a no-op returning `false`.
`emptyCells` enumerates exactly the empty board cells, without
duplicates, so picking the index `Math.floor(q * length)` is a uniform
choice among the currently-empty cells and not weighted by position: for
any draw `q` in `[0, 1)` the index is in range, and it equals `j` exactly
on an interval of draws of length `1 / length`, the same for every `j`.
With an in-range index, exactly one new tile appears on that empty cell —
value 2 when the value draw is below `0.9`, else 4 — every other cell is
unchanged, and `true` is returned. -/
theorem addRandomTile_contract :
    (∀ (g : Grid) (k : Nat) (b : Bool),
        emptyCells g = [] → addRandomTile g k b = (g, false)) ∧
    (∀ (g : Grid) (p : Pos),
        p ∈ emptyCells g ↔ withinBounds p = true ∧ gAt g p = none) ∧
    (∀ g : Grid, (emptyCells g).Nodup) ∧
    (∀ (g : Grid) (k : Nat) (b : Bool), k < (emptyCells g).length →
        (addRandomTile g k b).2 = true ∧
        gAt g ((emptyCells g).getD k ((0 : Int), (0 : Int))) = none ∧
        gAt (addRandomTile g k b).1 ((emptyCells g).getD k ((0 : Int), (0 : Int)))
          = some (if b then 2 else 4) ∧
        (∀ p : Pos, p ≠ (emptyCells g).getD k ((0 : Int), (0 : Int)) →
          gAt (addRandomTile g k b).1 p = gAt g p)) ∧
    (∀ (q : ℚ) (len : Nat), 0 ≤ q → q < 1 → 0 < len → randomIndex q len < len) ∧
    (∀ (q : ℚ) (len j : Nat), 0 ≤ q →
        (randomIndex q len = j ↔
          ((j : ℚ) ≤ q * (len : ℚ) ∧ q * (len : ℚ) < (j : ℚ) + 1))) ∧
    (∀ q : ℚ, (randomValue q = 2 ↔ q < 9 / 10) ∧
        (randomValue q = if decide (q < 9 / 10) then 2 else 4)) := by
  refine ⟨?_, fun g p => mem_emptyCells_iff, fun g => emptyCells_nodup g, ?_,
    fun q len h0 h1 hlen => randomIndex_lt h0 h1 hlen,
    fun q len j h0 => randomIndex_eq_iff h0, ?_⟩
  · intro g k b h
    unfold addRandomTile
    rw [if_pos (by rw [h]; rfl)]
  · intro g k b hk
    have hmem : (emptyCells g).getD k ((0 : Int), (0 : Int)) ∈ emptyCells g := by
      rw [List.getD_eq_getElem _ _ hk]
      exact List.getElem_mem hk
    obtain ⟨a, hpa, hga⟩ := mem_emptyCells.mp hmem
    rw [addRandomTile_eq b hk]
    refine ⟨rfl, ?_, ?_, ?_⟩
    · rw [gAt_of_toIdx? hpa]
      exact hga
    · exact gAt_setCell_self hpa g _
    · intro p hp
      exact gAt_setCell_ne g _ hp
  · intro q
    constructor
    · unfold randomValue
      by_cases hq : q < 9 / 10
      · rw [if_pos hq]
        exact ⟨fun _ => hq, fun _ => rfl⟩
      · rw [if_neg hq]
        exact ⟨fun h2 => absurd h2 (by decide), fun hq' => absurd hq' hq⟩
    · unfold randomValue
      by_cases hq : q < 9 / 10
      · rw [if_pos hq, if_pos (by simpa using hq)]
      · rw [if_neg hq, if_neg (by simpa using hq)]

/-- Witness for C9: a full board refuses to spawn; on a board with one
tile at `(0, 0)` the draw index 3 selects the fourth empty cell `(1, 0)`
and places a 2 there; concrete index and value draws behave as stated. -/
theorem addRandomTile_contract_witness :
    (emptyCells fullGrid = [] ∧ addRandomTile fullGrid 0 true = (fullGrid, false)) ∧
    (3 < (emptyCells singleTileGrid).length ∧
      (addRandomTile singleTileGrid 3 true).2 = true ∧
      gAt singleTileGrid ((emptyCells singleTileGrid).getD 3 ((0 : Int), (0 : Int)))
        = none ∧
      gAt (addRandomTile singleTileGrid 3 true).1
          ((emptyCells singleTileGrid).getD 3 ((0 : Int), (0 : Int)))
        = some (if true then 2 else 4) ∧
      (∀ p : Pos, p ≠ (emptyCells singleTileGrid).getD 3 ((0 : Int), (0 : Int)) →
        gAt (addRandomTile singleTileGrid 3 true).1 p = gAt singleTileGrid p)) ∧
    ((0 : ℚ) ≤ 0 ∧ (0 : ℚ) < 1 ∧ 0 < 15 ∧ randomIndex 0 15 < 15) ∧
    (randomValue 0 = 2 ↔ (0 : ℚ) < 9 / 10) :=
  ⟨⟨by decide, addRandomTile_contract.1 fullGrid 0 true (by decide)⟩,
    ⟨by decide, addRandomTile_contract.2.2.2.1 singleTileGrid 3 true (by decide)⟩,
    ⟨le_refl 0, zero_lt_one, by decide,
      addRandomTile_contract.2.2.2.2.1 0 15 (le_refl 0) zero_lt_one (by decide)⟩,
    (addRandomTile_contract.2.2.2.2.2.2 0).1⟩

/-! ### Game-over detection (C5) -/

lemma gAt_natCast {r c : Nat} (hr : r < 4) (hc : c < 4) (g : Grid) :
    gAt g ((r : Int), (c : Int)) = g ⟨r, hr⟩ ⟨c, hc⟩ :=
  gAt_of_toIdx? (toIdx?_natCast hr hc) g

lemma anyEmptyCell_eq_true (g : Grid) :
    anyEmptyCell g = true ↔ ∃ p : Fin 4 × Fin 4, g p.1 p.2 = none := by
  unfold anyEmptyCell
  rw [List.any_eq_true]
  constructor
  · rintro ⟨r, hr, hin⟩
    rw [List.any_eq_true] at hin
    obtain ⟨c, hc, hd⟩ := hin
    rw [List.mem_range] at hr hc
    have hr4 : r < 4 := by simpa [gridSize] using hr
    have hc4 : c < 4 := by simpa [gridSize] using hc
    rw [decide_eq_true_eq, gAt_natCast hr4 hc4] at hd
    exact ⟨(⟨r, hr4⟩, ⟨c, hc4⟩), hd⟩
  · rintro ⟨a, ha⟩
    refine ⟨(a.1 : Nat), ?_, ?_⟩
    · rw [List.mem_range]
      simpa [gridSize] using a.1.isLt
    · rw [List.any_eq_true]
      refine ⟨(a.2 : Nat), ?_, ?_⟩
      · rw [List.mem_range]
        simpa [gridSize] using a.2.isLt
      · rw [decide_eq_true_eq, gAt_natCast a.1.isLt a.2.isLt]
        exact ha

lemma anyMergeablePair_eq_true (g : Grid) :
    anyMergeablePair g = true ↔
      ∃ (r c : Nat) (hr : r < 4) (hc : c < 4) (v : Nat),
        g ⟨r, hr⟩ ⟨c, hc⟩ = some v ∧
        ((∃ hc3 : c < 3, g ⟨r, hr⟩ ⟨c + 1, by omega⟩ = some v) ∨
         (∃ hr3 : r < 3, g ⟨r + 1, by omega⟩ ⟨c, hc⟩ = some v)) := by
  unfold anyMergeablePair
  rw [List.any_eq_true]
  constructor
  · rintro ⟨r, hr, hin⟩
    rw [List.any_eq_true] at hin
    obtain ⟨c, hc, hd⟩ := hin
    rw [List.mem_range] at hr hc
    have hr4 : r < 4 := by simpa [gridSize] using hr
    have hc4 : c < 4 := by simpa [gridSize] using hc
    cases hcell : gAt g ((r : Int), (c : Int)) with
    | none =>
      rw [hcell] at hd
      cases hd
    | some v =>
      rw [hcell] at hd
      simp only [Bool.or_eq_true, Bool.and_eq_true, decide_eq_true_eq] at hd
      rw [gAt_natCast hr4 hc4] at hcell
      refine ⟨r, c, hr4, hc4, v, hcell, ?_⟩
      rcases hd with ⟨hc3, hnb⟩ | ⟨hr3, hnb⟩
      · have hc3' : c < 3 := by simpa [gridSize] using hc3
        refine Or.inl ⟨hc3', ?_⟩
        have : ((r : Int), (c : Int) + 1) = (((r : Nat) : Int), (((c + 1 : Nat)) : Int)) := by
          push_cast
          rfl
        rw [this, gAt_natCast hr4 (by omega)] at hnb
        exact hnb
      · have hr3' : r < 3 := by simpa [gridSize] using hr3
        refine Or.inr ⟨hr3', ?_⟩
        have : ((r : Int) + 1, (c : Int)) = ((((r + 1 : Nat)) : Int), ((c : Nat) : Int)) := by
          push_cast
          rfl
        rw [this, gAt_natCast (by omega) hc4] at hnb
        exact hnb
  · rintro ⟨r, c, hr, hc, v, hv, hpair⟩
    refine ⟨r, List.mem_range.mpr (by simpa [gridSize] using hr), ?_⟩
    rw [List.any_eq_true]
    refine ⟨c, List.mem_range.mpr (by simpa [gridSize] using hc), ?_⟩
    rw [show gAt g ((r : Int), (c : Int)) = some v from by
      rw [gAt_natCast hr hc]; exact hv]
    simp only [Bool.or_eq_true, Bool.and_eq_true, decide_eq_true_eq]
    rcases hpair with ⟨hc3, hnb⟩ | ⟨hr3, hnb⟩
    · refine Or.inl ⟨by simpa [gridSize], ?_⟩
      rw [show ((r : Int), (c : Int) + 1) = (((r : Nat) : Int), (((c + 1 : Nat)) : Int))
        from by push_cast; rfl]
      rw [gAt_natCast hr (by omega)]
      exact hnb
    · refine Or.inr ⟨by simpa [gridSize], ?_⟩
      rw [show ((r : Int) + 1, (c : Int)) = ((((r + 1 : Nat)) : Int), ((c : Nat) : Int))
        from by push_cast; rfl]
      rw [gAt_natCast (by omega) hc]
      exact hnb

/-- C5: `movesAvailable()` returns `false` exactly when no cell is empty
and no two orthogonally-adjacent cells hold equal tiles; equivalently, an
empty cell or an equal orthogonal neighbor pair makes it return `true`.
(The source scans only right and down neighbors, which by symmetry covers
every orthogonal pair.) -/
theorem movesAvailable_false_iff (g : Grid) :
    movesAvailable g = false ↔ NoMoveState g := by
  unfold movesAvailable
  rw [Bool.or_eq_false_iff]
  constructor
  · rintro ⟨hA, hB⟩
    constructor
    · intro p
      cases hp : g p.1 p.2 with
      | some v => rfl
      | none =>
        exfalso
        have hT : anyEmptyCell g = true := (anyEmptyCell_eq_true g).mpr ⟨p, hp⟩
        rw [hA] at hT
        cases hT
    · rintro p q hadj v ⟨hp, hq⟩
      have hT : anyMergeablePair g = true := by
        rw [anyMergeablePair_eq_true]
        rcases hadj with ⟨h1, h2 | h2⟩ | ⟨h1, h2 | h2⟩
        · -- q is the right neighbor of p
          refine ⟨(p.1 : Nat), (p.2 : Nat), p.1.isLt, p.2.isLt, v, hp,
            Or.inl ⟨by omega, ?_⟩⟩
          rw [show (⟨(p.2 : Nat) + 1, by omega⟩ : Fin 4) = q.2 from Fin.ext (by simp [h2]),
            show (⟨(p.1 : Nat), p.1.isLt⟩ : Fin 4) = p.1 from rfl, h1]
          exact hq
        · -- p is the right neighbor of q
          refine ⟨(q.1 : Nat), (q.2 : Nat), q.1.isLt, q.2.isLt, v, ?_,
            Or.inl ⟨by omega, ?_⟩⟩
          · rw [show (⟨(q.1 : Nat), q.1.isLt⟩ : Fin 4) = q.1 from rfl]
            exact hq
          · rw [show (⟨(q.2 : Nat) + 1, by omega⟩ : Fin 4) = p.2 from Fin.ext (by simp [h2]),
              show (⟨(q.1 : Nat), q.1.isLt⟩ : Fin 4) = q.1 from rfl, ← h1]
            exact hp
        · -- q is the lower neighbor of p
          refine ⟨(p.1 : Nat), (p.2 : Nat), p.1.isLt, p.2.isLt, v, hp,
            Or.inr ⟨by omega, ?_⟩⟩
          rw [show (⟨(p.1 : Nat) + 1, by omega⟩ : Fin 4) = q.1 from Fin.ext (by simp [h2]),
            show (⟨(p.2 : Nat), p.2.isLt⟩ : Fin 4) = p.2 from rfl, h1]
          exact hq
        · -- p is the lower neighbor of q
          refine ⟨(q.1 : Nat), (q.2 : Nat), q.1.isLt, q.2.isLt, v, ?_,
            Or.inr ⟨by omega, ?_⟩⟩
          · rw [show (⟨(q.2 : Nat), q.2.isLt⟩ : Fin 4) = q.2 from rfl]
            exact hq
          · rw [show (⟨(q.1 : Nat) + 1, by omega⟩ : Fin 4) = p.1 from Fin.ext (by simp [h2]),
              show (⟨(q.2 : Nat), q.2.isLt⟩ : Fin 4) = q.2 from rfl, ← h1]
            exact hp
      rw [hB] at hT
      cases hT
  · rintro ⟨h1, h2⟩
    constructor
    · rw [Bool.eq_false_iff]
      intro hT
      obtain ⟨p, hp⟩ := (anyEmptyCell_eq_true g).mp hT
      have hs := h1 p
      rw [hp] at hs
      cases hs
    · rw [Bool.eq_false_iff]
      intro hT
      obtain ⟨r, c, hr, hc, v, hv, hpair⟩ := (anyMergeablePair_eq_true g).mp hT
      rcases hpair with ⟨hc3, hv'⟩ | ⟨hr3, hv'⟩
      · exact h2 (⟨r, hr⟩, ⟨c, hc⟩) (⟨r, hr⟩, ⟨c + 1, by omega⟩)
          (Or.inl ⟨rfl, Or.inl rfl⟩) v ⟨hv, hv'⟩
      · exact h2 (⟨r, hr⟩, ⟨c, hc⟩) (⟨r + 1, by omega⟩, ⟨c, hc⟩)
          (Or.inr ⟨rfl, Or.inl rfl⟩) v ⟨hv, hv'⟩
